import Mathlib

/-!
Verification of the AED-AUT conversation/analysis pipeline.

This file shallowly embeds the pipeline code of the repository:
* the retry wrapper `callApiWithRetry` (src/services/geminiService.ts),
* the response normalizer of `callGemini` including `convertData`,
* the streaming chat path's inline cell conversion (src/components/ChatInterface.tsx),
* the conversation-memory logic of `submitQuery` (src/components/ChatInterface.tsx),
* the column profiler `detectColumnType` / `profileData` (the data profiler module),
* `summarizeConversation` (the service module).

JavaScript dynamic values are embedded as the inductive `JValue`; the JS builtin
string-to-number conversion (ECMA ToNumber applied to strings) is modelled by
`jsStrToNumber`.  A finite JS number is carried as an exact scaled integer
`m · 10^e` (see `JSNum`); IEEE-754 rounding of decimal literals is elided.  This
does not affect NaN-ness or infinity-ness of any conversion, which is what the
pipeline's per-cell decisions depend on.  Host-defined behaviours (`Date.parse`,
the text of `SyntaxError` messages, `String()` on non-integral numbers and
nested arrays) are modelled by explicitly named stand-ins, noted at their
definitions.
-/

namespace AED

/-- A JavaScript number: NaN, the two infinities, or a finite value.  A finite
value is carried as a scaled exact integer `m · 10^e` (the form every string
numeric literal denotes); IEEE-754 rounding is elided.  The pipeline never does
arithmetic on cell values — it only converts strings — so each value is reached
by exactly one parse and the representation is stable: structural equality of
the representations produced by the embedded code coincides with JS `===` on
the corresponding numbers, and `JSNum.toRat` gives the denoted value. -/
inductive JSNum where
  | nan
  | posInf
  | negInf
  | fin (m : ℤ) (e : ℤ)
deriving DecidableEq, Repr

/-- The rational value denoted by a finite JS number. -/
def JSNum.toRat : JSNum → Option ℚ
  | .fin m e => some ((m : ℚ) * (10 : ℚ) ^ e)
  | _ => none

/-- `isNaN(n)` for an already-converted number. -/
def JSNum.isNaN : JSNum → Bool
  | .nan => true
  | _ => false

/-- `Number.isFinite(n)`: true exactly for finite values. -/
def JSNum.isFinite : JSNum → Bool
  | .fin _ _ => true
  | _ => false

/-- An integer-valued JS number with exponent 0; used to write expected
values of integral cells. -/
def jsInt (n : ℤ) : JSNum := JSNum.fin n 0

/-- The ASCII JavaScript whitespace characters (space, tab, LF, CR, VT, FF).
Non-ASCII whitespace code points are elided; no input in this development
contains them. -/
def isWsChar (c : Char) : Bool :=
  c == ' ' || c == '\t' || c == '\n' || c == '\r' || c == '\x0b' || c == '\x0c'

/-- Strip leading and trailing JS whitespace from a character list. -/
def wsTrimList (l : List Char) : List Char :=
  ((l.dropWhile isWsChar).reverse.dropWhile isWsChar).reverse

/-- `String.prototype.trim()` (ASCII whitespace subset). -/
def jsTrim (s : String) : String :=
  ⟨wsTrimList s.data⟩

/-- Value of a decimal digit character. -/
def digitVal (c : Char) : ℕ := c.toNat - 48

/-- Value of a list of decimal digits, most significant first. -/
def decDigitsVal (l : List Char) : ℕ :=
  l.foldl (fun a c => 10 * a + digitVal c) 0

/-- Hexadecimal digit test. -/
def isHexDigit (c : Char) : Bool :=
  c.isDigit || ('a' ≤ c && c ≤ 'f') || ('A' ≤ c && c ≤ 'F')

/-- Value of a hexadecimal digit character. -/
def hexDigitVal (c : Char) : ℕ :=
  if c.isDigit then c.toNat - 48
  else if 'a' ≤ c && c ≤ 'f' then c.toNat - 87
  else c.toNat - 55

/-- Value of a digit list in radix `r` with digit valuation `f`. -/
def radixVal (r : ℕ) (f : Char → ℕ) (l : List Char) : ℕ :=
  l.foldl (fun a c => r * a + f c) 0

/-- Exponent-suffix digits of a StrDecimalLiteral: requires at least one digit
and nothing after them; shifts the exponent of `m · 10^e`. -/
def parseExpDigits (sgn : ℤ) (l : List Char) (m e : ℤ) : Option JSNum :=
  if l ≠ [] ∧ l.all Char.isDigit then
    some (JSNum.fin m (e + sgn * (decDigitsVal l : ℤ)))
  else none

/-- Optional exponent part (`e`/`E`, optional sign, digits) of a
StrDecimalLiteral; `[]` means no exponent. -/
def parseExp (l : List Char) (m e : ℤ) : Option JSNum :=
  match l with
  | [] => some (JSNum.fin m e)
  | c :: rest =>
    if c == 'e' || c == 'E' then
      match rest with
      | '+' :: r2 => parseExpDigits 1 r2 m e
      | '-' :: r2 => parseExpDigits (-1) r2 m e
      | r2 => parseExpDigits 1 r2 m e
    else none

/-- Unsigned StrDecimalLiteral: `digits [. digits] [exp]` or `. digits [exp]`. -/
def parseDec (l : List Char) : Option JSNum :=
  let ip := l.takeWhile Char.isDigit
  let rest1 := l.dropWhile Char.isDigit
  match rest1 with
  | '.' :: rest2 =>
    let fp := rest2.takeWhile Char.isDigit
    let rest3 := rest2.dropWhile Char.isDigit
    if ip.isEmpty && fp.isEmpty then none
    else parseExp rest3 ((decDigitsVal ip * 10 ^ fp.length + decDigitsVal fp : ℕ) : ℤ) (-(fp.length : ℤ))
  | _ =>
    if ip.isEmpty then none else parseExp rest1 ((decDigitsVal ip : ℕ) : ℤ) 0

/-- Negate the mantissa of a finite number (sign application). -/
def JSNum.negIfNeg (sgn : ℤ) : JSNum → JSNum
  | .fin m e => .fin (sgn * m) e
  | n => n

/-- Signed decimal or `Infinity` branch of ToNumber. -/
def decUnsigned (sgn : ℤ) (l : List Char) : JSNum :=
  if l = ("Infinity").data then (if sgn = 1 then JSNum.posInf else JSNum.negInf)
  else
    match parseDec l with
    | some n => n.negIfNeg sgn
    | none => JSNum.nan

/-- Split an optional sign and continue with `decUnsigned`. -/
def decSigned (l : List Char) : JSNum :=
  match l with
  | '+' :: rest => decUnsigned 1 rest
  | '-' :: rest => decUnsigned (-1) rest
  | _ => decUnsigned 1 l

/-- Binary digit test. -/
def isBinDigit (c : Char) : Bool := c == '0' || c == '1'

/-- Octal digit test. -/
def isOctDigit (c : Char) : Bool := '0' ≤ c && c ≤ '7'

/-- The ECMA string-numeric-literal grammar on an already-trimmed character
list: empty string is 0, then hex/octal/binary (unsigned only), then signed
decimal or Infinity, anything else NaN. -/
def strToNumCore (l : List Char) : JSNum :=
  match l with
  | [] => JSNum.fin 0 0
  | '0' :: c :: rest =>
    if c == 'x' || c == 'X' then
      if rest ≠ [] ∧ rest.all isHexDigit then JSNum.fin (radixVal 16 hexDigitVal rest) 0 else JSNum.nan
    else if c == 'o' || c == 'O' then
      if rest ≠ [] ∧ rest.all isOctDigit then JSNum.fin (radixVal 8 digitVal rest) 0 else JSNum.nan
    else if c == 'b' || c == 'B' then
      if rest ≠ [] ∧ rest.all isBinDigit then JSNum.fin (radixVal 2 digitVal rest) 0 else JSNum.nan
    else decSigned l
  | _ => decSigned l

/-- `Number(s)` for a string `s` (ECMA ToNumber on strings): trim JS
whitespace, then the string-numeric-literal grammar. -/
def jsStrToNumber (s : String) : JSNum :=
  strToNumCore (wsTrimList s.data)

example : jsStrToNumber "150" = jsInt 150 := by decide
example : jsStrToNumber "200" = jsInt 200 := by decide
example : jsStrToNumber "" = jsInt 0 := by decide
example : jsStrToNumber "  " = jsInt 0 := by decide
example : jsStrToNumber "Jan" = JSNum.nan := by decide
example : jsStrToNumber "Infinity" = JSNum.posInf := by decide
example : jsStrToNumber "-Infinity" = JSNum.negInf := by decide
example : jsStrToNumber "1.5" = JSNum.fin 15 (-1) := by decide
example : jsStrToNumber "1e2" = JSNum.fin 1 2 := by decide
example : jsStrToNumber "-3" = jsInt (-3) := by decide
example : jsStrToNumber "0x1A" = jsInt 26 := by decide
example : jsStrToNumber "1e" = JSNum.nan := by decide
example : jsStrToNumber "." = JSNum.nan := by decide
example : jsStrToNumber ".5" = JSNum.fin 5 (-1) := by decide
example : jsStrToNumber "5." = JSNum.fin 5 0 := by decide
example : jsStrToNumber "+0x1" = JSNum.nan := by decide
example : jsStrToNumber "2024-01-01" = JSNum.nan := by decide

/-- A JavaScript/JSON value as the pipeline sees it: strings, numbers,
booleans, `null`, `undefined`, arrays, and plain objects (ordered field
lists; the object helpers below keep keys duplicate-free, as JS objects do). -/
inductive JValue where
  | vstr (s : String)
  | vnum (n : JSNum)
  | vbool (b : Bool)
  | vnull
  | vundefined
  | varr (elems : List JValue)
  | vobj (fields : List (String × JValue))
deriving Repr

/-- JS truthiness of a value. -/
def jsTruthy : JValue → Bool
  | .vstr s => s ≠ ""
  | .vnum (.fin m _) => m ≠ 0
  | .vnum .nan => false
  | .vnum _ => true
  | .vbool b => b
  | .vnull => false
  | .vundefined => false
  | .varr _ => true
  | .vobj _ => true

/-- `Array.isArray(v)`. -/
def isArray : JValue → Bool
  | .varr _ => true
  | _ => false

/-- `typeof v === "string"`. -/
def isString : JValue → Bool
  | .vstr _ => true
  | _ => false

/-- `String(n)` for a JS number.  Exact for NaN, the infinities and integral
values (the only numbers the pipeline stringifies); for a non-integral value
the schematic form `m e<exp>` stands in for the host's shortest-round-trip
decimal rendering. -/
def jsNumToString (n : JSNum) : String :=
  match n with
  | .nan => "NaN"
  | .posInf => "Infinity"
  | .negInf => "-Infinity"
  | .fin m e => if e = 0 then toString m else toString m ++ "e" ++ toString e

/-- `String(v)` for primitives (and the fixed object form); array elements are
rendered by `jsToString` below. -/
def jsToStringPrim : JValue → String
  | .vstr s => s
  | .vnum n => jsNumToString n
  | .vbool b => if b then "true" else "false"
  | .vnull => "null"
  | .vundefined => "undefined"
  | .vobj _ => "[object Object]"
  | .varr _ => ""

/-- `String(v)`.  Arrays render as their elements joined by commas with
`null`/`undefined` elements blank (one level deep: a nested array element
renders schematically as `""`; no input in this development nests arrays
under stringification). -/
def jsToString (v : JValue) : String :=
  match v with
  | .varr xs =>
    String.intercalate "," (xs.map fun x =>
      match x with
      | .vnull => ""
      | .vundefined => ""
      | y => jsToStringPrim y)
  | w => jsToStringPrim w

/-- `Number(v)` (full ToNumber): numbers pass through, strings parse, `null`
is 0, `undefined` is NaN, booleans are 0/1, arrays and objects go through
ToPrimitive (string conversion) and then parse. -/
def jsToNumber : JValue → JSNum
  | .vnum n => n
  | .vstr s => jsStrToNumber s
  | .vnull => JSNum.fin 0 0
  | .vundefined => JSNum.nan
  | .vbool b => if b then JSNum.fin 1 0 else JSNum.fin 0 0
  | v => jsStrToNumber (jsToString v)

/-- JS object property assignment on an ordered field list: an existing key
keeps its position and gets the new value; a new key is appended. -/
def objSet (o : List (String × JValue)) (k : String) (v : JValue) : List (String × JValue) :=
  if o.any (fun p => p.1 = k) then
    o.map (fun p => if p.1 = k then (k, v) else p)
  else o ++ [(k, v)]

/-- Property lookup on an ordered field list. -/
def objGet (o : List (String × JValue)) (k : String) : Option JValue :=
  (o.find? (fun p => p.1 = k)).map Prod.snd

/-- `v[k]` as an operation that can throw: a TypeError on `null`/`undefined`,
a field lookup on objects (missing fields give `undefined`), and `undefined`
on the remaining values (no property named by the pipeline's keys exists on
primitives or arrays). -/
def getProp (v : JValue) (k : String) : Except Unit JValue :=
  match v with
  | .vnull => .error ()
  | .vundefined => .error ()
  | .vobj fs => .ok ((objGet fs k).getD .vundefined)
  | _ => .ok .vundefined

/-- Set a field on an object value; any other value is returned unchanged
(the pipeline only assigns fields of values it has checked to be objects). -/
def setProp (v : JValue) (k : String) (x : JValue) : JValue :=
  match v with
  | .vobj fs => .vobj (objSet fs k x)
  | w => w

/-- Is a value `null` or `undefined` (the values whose property and index
accesses throw a TypeError)? -/
def isNullish : JValue → Bool
  | .vnull => true
  | .vundefined => true
  | _ => false

/-- The value of `row[index]` once `row` is known not to be nullish: array
indexing (out of range gives `undefined`), string indexing (a one-character
string), object lookup by the decimal index key, `undefined` on the other
primitives. -/
def cellAt (row : JValue) (i : ℕ) : JValue :=
  match row with
  | .varr cells => cells.getD i .vundefined
  | .vstr s => if h : i < s.data.length then .vstr ⟨[s.data.get ⟨i, h⟩]⟩ else .vundefined
  | .vobj fs => (objGet fs (toString i)).getD .vundefined
  | _ => .vundefined

/-- `row[index]` in the pipeline's row handling: a TypeError on a `null` or
`undefined` row, the indexed value otherwise. -/
def indexVal (row : JValue) (i : ℕ) : Except Unit JValue :=
  match row with
  | .vnull => .error ()
  | .vundefined => .error ()
  | .varr cells => .ok (cells.getD i .vundefined)
  | .vstr s => .ok (if h : i < s.data.length then .vstr ⟨[s.data.get ⟨i, h⟩]⟩ else .vundefined)
  | .vobj fs => .ok ((objGet fs (toString i)).getD .vundefined)
  | _ => .ok .vundefined

example : jsTruthy (JValue.vstr " ") = true := by decide
example : jsTruthy (JValue.vstr "") = false := by decide
example : jsToString (JValue.vnum (jsInt 150)) = "150" := rfl
example : indexVal (JValue.varr [JValue.vstr "a"]) 1 = .ok JValue.vundefined := rfl
example : indexVal JValue.vnull 0 = .error () := rfl

/-! ## The service normalizer's `convertData` (src/services/geminiService.ts) -/

/-- One cell of `convertData`: non-strings pass through; a string is trimmed
and replaced by `Number(trim)` when the trim is non-empty and
`!isNaN(Number(trim))`, otherwise the original string is kept. -/
def coerceCell (value : JValue) : JValue :=
  match value with
  | .vstr s =>
    let trimmedValue := jsTrim s
    if trimmedValue ≠ "" ∧ (jsStrToNumber trimmedValue).isNaN = false then
      .vnum (jsStrToNumber trimmedValue)
    else .vstr s
  | v => v

/-- The body of the `headers.forEach((header, index) => { … })` loop of
`convertData`, run over the indexed headers in order: each step evaluates
`const value = row[index]` — throwing when the row is nullish — and then
assigns `obj[header]` the coerced cell. -/
def buildRowLoop (row : JValue) :
    List (ℕ × String) → List (String × JValue) → Except Unit (List (String × JValue))
  | [], obj => .ok obj
  | p :: ps, obj =>
    match indexVal row p.1 with
    | .error e => .error e
    | .ok value => buildRowLoop row ps (objSet obj p.2 (coerceCell value))

/-- One row of `convertData`: run the header loop from an empty object. -/
def buildRowObj (headers : List String) (row : JValue) : Except Unit (List (String × JValue)) :=
  buildRowLoop row headers.enum []

/-- `convertData` itself: a non-array or an array of fewer than 2 rows gives
`[]`; otherwise the first row is stringified into header names
(`data[0].map(h => String(h))`, which throws when `data[0]` is not an array)
and each remaining row becomes a row object — or throws, on a nullish row
with at least one header. -/
def convertData (data : JValue) : Except Unit (List (List (String × JValue))) :=
  match data with
  | .varr rows =>
    if rows.length < 2 then .ok []
    else
      match rows with
      | .varr hdr :: rest => rest.mapM (buildRowObj (hdr.map jsToString))
      | _ => .error ()
  | _ => .ok []

/-! ## The streaming chat path's inline conversion (src/components/ChatInterface.tsx) -/

/-- One cell of the chat path's inline conversion: `value && !isNaN(Number(value))`
coerces with no trim and with full ToNumber on any value. -/
def chatCoerceCell (value : JValue) : JValue :=
  if jsTruthy value ∧ (jsToNumber value).isNaN = false then .vnum (jsToNumber value)
  else value

/-- The chat path's `headers.forEach` loop body: `const value = row[index]`
(throwing on a nullish row) then `obj[header] = …`, the header value coerced
to a property key via `String`. -/
def chatRowLoop (row : JValue) :
    List (ℕ × JValue) → List (String × JValue) → Except Unit (List (String × JValue))
  | [], obj => .ok obj
  | p :: ps, obj =>
    match indexVal row p.1 with
    | .error e => .error e
    | .ok value => chatRowLoop row ps (objSet obj (jsToString p.2) (chatCoerceCell value))

/-- One row of the chat path's conversion. -/
def chatBuildRowObj (headers : List JValue) (row : JValue) :
    Except Unit (List (String × JValue)) :=
  chatRowLoop row headers.enum []

/-- The chat path's inline table conversion: `headers = data[0]` (unstringified),
then `data.slice(1).map(row => …)`.  A non-array first element with at least
one data row throws (`headers.forEach` on a non-array). -/
def chatConvertData (data : List JValue) : Except Unit (List (List (String × JValue))) :=
  match data with
  | .varr headers :: rest => rest.mapM (chatBuildRowObj headers)
  | _ :: _ :: _ => .error ()
  | _ => .ok []

/-! ## Conversation memory logic of `submitQuery` (src/components/ChatInterface.tsx) -/

/-- The fields of a chat message the memory logic consults (ids, analysis
payloads and error flags are not read by it and are elided). -/
structure ChatMsg where
  sender : String
  text : String
  isTyping : Bool
deriving DecidableEq, Repr

/-- `HISTORY_CHAR_LIMIT` — character limit that triggers summarization. -/
def HISTORY_CHAR_LIMIT : ℕ := 4000

/-- `RECENT_MESSAGES_TO_KEEP` — messages kept verbatim past the limit. -/
def RECENT_MESSAGES_TO_KEEP : ℕ := 4

/-- One transcript line, `sender: text`. -/
def msgLine (m : ChatMsg) : String := m.sender ++ ": " ++ m.text

/-- The memory-optimization block of `submitQuery`: returns
`(historyForPrompt, summaryForPrompt)`.  String length is counted in
characters (JS counts UTF-16 units; they agree on all inputs used here,
which are ASCII). -/
def computeMemory (conversationSummary : String) (currentMessages : List ChatMsg) :
    String × String :=
  let validMessages := currentMessages.filter (fun m => !m.isTyping)
  let fullHistoryText := String.intercalate "\n" (validMessages.map msgLine)
  if fullHistoryText.length > HISTORY_CHAR_LIMIT then
    (String.intercalate "\n"
      ((validMessages.drop (validMessages.length - RECENT_MESSAGES_TO_KEEP)).map msgLine),
     conversationSummary)
  else
    (fullHistoryText, "")

/-- The text handed to the non-blocking summarization request
(`validMessages.slice(0, -RECENT_MESSAGES_TO_KEEP)`). -/
def olderTurnsText (currentMessages : List ChatMsg) : String :=
  let validMessages := currentMessages.filter (fun m => !m.isTyping)
  String.intercalate "\n"
    ((validMessages.take (validMessages.length - RECENT_MESSAGES_TO_KEEP)).map msgLine)

/-! ## The retry wrapper `callApiWithRetry` (src/services/geminiService.ts) -/

/-- `MAX_RETRIES`. -/
def MAX_RETRIES : ℕ := 3

/-- `INITIAL_BACKOFF_MS` (milliseconds, as an exact rational). -/
def INITIAL_BACKOFF_MS : ℚ := 2000

/-- JS `toLowerCase` (ASCII subset, which is all the quota check needs). -/
def toLowerAscii (s : String) : String := ⟨s.data.map Char.toLower⟩

/-- `a.includes(b)`. -/
def containsSub (s sub : String) : Bool :=
  (List.range (s.data.length + 1)).any (fun i => sub.data.isPrefixOf (s.data.drop i))

/-- The wrapper's retriable-error test:
`message.includes('429') || message.toLowerCase().includes('quota')`. -/
def isQuotaError (msg : String) : Bool :=
  containsSub msg "429" || containsSub (toLowerAscii msg) "quota"

/-- What one run of the wrapper did: the value returned or error thrown, how
many times `apiCall` was invoked, and the waits performed (in order). -/
structure RetryOutcome (α : Type) where
  result : Except String α
  calls : ℕ
  waits : List ℚ

/-- `INITIAL_BACKOFF_MS * Math.pow(2, attempt) + Math.random() * 1000`; the
jitter sequence abstracts the `Math.random() * 1000` draws. -/
def backoffTime (jitter : ℕ → ℚ) (attempt : ℕ) : ℚ :=
  INITIAL_BACKOFF_MS * 2 ^ attempt + jitter attempt

/-- The retry loop, one constructor case per remaining iteration; `lastError`
models the `lastError` variable (its initial `null` is modelled as `""`,
which is unreachable output because the loop always runs at least once). -/
def retryAux (f : ℕ → Except String α) (jitter : ℕ → ℚ) :
    ℕ → ℕ → List ℚ → String → RetryOutcome α
  | 0, attempt, waits, lastError => ⟨.error lastError, attempt, waits⟩
  | rem + 1, attempt, waits, _lastError =>
    match f attempt with
    | .ok a => ⟨.ok a, attempt + 1, waits⟩
    | .error e =>
      if isQuotaError e then
        if attempt < MAX_RETRIES - 1 then
          retryAux f jitter rem (attempt + 1) (waits ++ [backoffTime jitter attempt]) e
        else
          retryAux f jitter rem (attempt + 1) waits e
      else ⟨.error e, attempt + 1, waits⟩

/-- `callApiWithRetry`, with the outcome of the `attempt`-th invocation of
`apiCall` given by `f attempt`. -/
def callApiWithRetry (f : ℕ → Except String α) (jitter : ℕ → ℚ) : RetryOutcome α :=
  retryAux f jitter MAX_RETRIES 0 [] ""

/-! ## The column profiler (detectColumnType / profileData) -/

/-- Split a character list at every occurrence of `sep` (JS
`split(<one-char string>)` semantics: n separators give n+1 pieces). -/
def splitListOn (sep : Char) (l : List Char) : List (List Char) :=
  l.foldr
    (fun c acc =>
      match acc with
      | cur :: rest => if c = sep then [] :: cur :: rest else (c :: cur) :: rest
      | [] => [[c]])
    [[]]

/-- `s.split(sep)` for a one-character separator. -/
def splitChar (sep : Char) (s : String) : List String :=
  (splitListOn sep s.data).map (fun l => ⟨l⟩)

/-- Split on `/\r?\n/`: split at every LF and drop one CR left at the end of
a piece by a CRLF. -/
def splitJsLines (s : String) : List String :=
  (splitChar '\n' s).map (fun line =>
    if line.data.getLast? = some '\r' then ⟨line.data.dropLast⟩ else line)

/-- `replace(/"/g, '')`. -/
def stripQuotes (s : String) : String := ⟨s.data.filter (fun c => c ≠ '"')⟩

/-- `cell.trim().replace(/"/g, '')` applied to every header and data cell. -/
def cleanCell (s : String) : String := stripQuotes (jsTrim s)

/-- `v === null || v === undefined || v.trim() === ''` (a missing cell of a
ragged row is `undefined`, modelled as `none`). -/
def isBlankCell : Option String → Bool
  | none => true
  | some s => jsTrim s = ""

/-- `/^-?\d+$/`: an optional leading minus followed by one or more digits
and nothing else. -/
def intPat (s : String) : Bool :=
  match s.data with
  | [] => false
  | c :: rest =>
    if c = '-' then rest ≠ [] && rest.all Char.isDigit
    else (c :: rest).all Char.isDigit

/-- `/^\d{4}-\d{2}-\d{2}/` (an unanchored-end prefix match). -/
def datePat (s : String) : Bool :=
  match s.data with
  | a :: b :: c :: d :: '-' :: e :: f :: '-' :: g :: h :: _ =>
    [a, b, c, d, e, f, g, h].all Char.isDigit
  | _ => false

/-- The profiler's numeric loop with its early `break`: returns
`(isNumeric, isInteger)` as left by the loop. -/
def scanNum : List String → Bool → Bool × Bool
  | [], isInteger => (true, isInteger)
  | v :: rest, isInteger =>
    if (jsStrToNumber v).isNaN then (false, isInteger)
    else scanNum rest (isInteger && intPat v)

/-- `detectColumnType`, parameterized by the host's `Date.parse` success test
(`dateParse v` models `!isNaN(Date.parse(v))`). -/
def detectColumnType (dateParse : String → Bool) (values : List (Option String)) : String :=
  if values.all isBlankCell then "EMPTY"
  else
    let sample := values.filterMap (fun v =>
      match v with
      | some s => if jsTrim s ≠ "" then some s else none
      | none => none)
    if sample.isEmpty then "EMPTY"
    else
      let scanned := scanNum sample true
      if scanned.1 then (if scanned.2 then "INTEGER" else "FLOAT")
      else if sample.all (fun v => dateParse v || datePat v) && !sample.isEmpty then "DATE"
      else "STRING"

/-- A stand-in for the host-defined `Date.parse` success test, used only when
the development needs a concrete instance; only its values on the strings
actually profiled matter, and on those it matches V8 (`"a"`, `"b"` fail to
parse; `"2024-01-01"`-shaped strings parse). -/
def dateParseModel (s : String) : Bool := datePat s

/-- One column's record in the profile. -/
structure DataProfileColumn where
  name : String
  type : String
  missing : ℕ
deriving DecidableEq, Repr

/-- The dataset profile. -/
structure DataProfile where
  rowCount : ℕ
  columnCount : ℕ
  columns : List DataProfileColumn
deriving DecidableEq, Repr

/-- `jsParseInt(v, 10)`: leading whitespace, optional sign, longest run of
decimal digits (none gives NaN); trailing text is ignored. -/
def jsParseInt (s : String) : JSNum :=
  let l := s.data.dropWhile isWsChar
  let p : ℤ × List Char :=
    match l with
    | '+' :: r => (1, r)
    | '-' :: r => (-1, r)
    | r => (1, r)
  let ds := p.2.takeWhile Char.isDigit
  if ds.isEmpty then JSNum.nan else JSNum.fin (p.1 * decDigitsVal ds) 0

/-- Exponent suffix of `parseFloat`'s longest-prefix parse: an invalid
exponent is simply not consumed. -/
def floatExp (l : List Char) (m e : ℤ) : JSNum :=
  match l with
  | c :: rest =>
    if c == 'e' || c == 'E' then
      let p : ℤ × List Char :=
        match rest with
        | '+' :: r => (1, r.takeWhile Char.isDigit)
        | '-' :: r => (-1, r.takeWhile Char.isDigit)
        | r => (1, r.takeWhile Char.isDigit)
      if p.2.isEmpty then JSNum.fin m e else JSNum.fin m (e + p.1 * decDigitsVal p.2)
    else JSNum.fin m e
  | [] => JSNum.fin m e

/-- `parseFloat(v)`: leading whitespace, optional sign, `Infinity` or the
longest decimal-literal prefix; no prefix gives NaN. -/
def jsParseFloat (s : String) : JSNum :=
  let l := s.data.dropWhile isWsChar
  let p : ℤ × List Char :=
    match l with
    | '+' :: r => (1, r)
    | '-' :: r => (-1, r)
    | r => (1, r)
  if ("Infinity").data.isPrefixOf p.2 then (if p.1 = 1 then JSNum.posInf else JSNum.negInf)
  else
    let ip := p.2.takeWhile Char.isDigit
    let rest1 := p.2.dropWhile Char.isDigit
    match rest1 with
    | '.' :: rest2 =>
      let fp := rest2.takeWhile Char.isDigit
      let rest3 := rest2.dropWhile Char.isDigit
      if ip.isEmpty && fp.isEmpty then JSNum.nan
      else floatExp rest3 (p.1 * ((decDigitsVal ip * 10 ^ fp.length + decDigitsVal fp : ℕ) : ℤ))
        (-(fp.length : ℤ))
    | _ => if ip.isEmpty then JSNum.nan else floatExp rest1 (p.1 * (decDigitsVal ip : ℕ)) 0

/-- One cell of the profiler's `jsonData`: blanks become `null`, integer and
float columns parse, everything else keeps the string. -/
def jsonCell (ty : String) (val : Option String) : JValue :=
  if isBlankCell val then .vnull
  else
    match val with
    | some v =>
      if ty = "INTEGER" then .vnum (jsParseInt v)
      else if ty = "FLOAT" then .vnum (jsParseFloat v)
      else .vstr v
    | none => .vnull

/-- The cleaned header cells of a CSV text (first line split on commas). -/
def csvHeaderOf (csvData : String) : List String :=
  (splitChar ',' ((splitJsLines (jsTrim csvData)).headD "")).map cleanCell

/-- The cleaned data rows (`lines.slice(1)` split on commas). -/
def csvRowsOf (csvData : String) : List (List String) :=
  (splitJsLines (jsTrim csvData)).tail.map (fun line => (splitChar ',' line).map cleanCell)

/-- `profileData`: trims the text, splits lines, cleans the header and data
cells, and fails with `Error("CSV file has no data rows.")` when no data
rows remain; otherwise builds the per-column profile and the typed
`jsonData` rows. -/
def profileData (dateParse : String → Bool) (csvData : String) :
    Except String (DataProfile × List (List (String × JValue))) :=
  let header := csvHeaderOf csvData
  let rows := csvRowsOf csvData
  if rows.length = 0 then .error "CSV file has no data rows."
  else
    let columnCount := header.length
    let rowCount := rows.length
    let columns := header.enum.map (fun p =>
      let colValues := rows.map (fun row => row[p.1]?)
      let missing := (colValues.filter isBlankCell).length
      { name := p.2, type := detectColumnType dateParse colValues, missing := missing
        : DataProfileColumn })
    let jsonData := rows.map (fun row =>
      header.enum.foldl (fun obj p =>
        let val := row[p.1]?
        let ty := ((columns[p.1]?).map DataProfileColumn.type).getD "STRING"
        objSet obj p.2 (jsonCell ty val)) [])
    .ok ({ rowCount := rowCount, columnCount := columnCount, columns := columns }, jsonData)

example : detectColumnType dateParseModel [some "1", some "2", some "3"] = "INTEGER" := by decide
example : detectColumnType dateParseModel [some "1.5", some "2"] = "FLOAT" := by decide
example : detectColumnType dateParseModel [some "", some "", some ""] = "EMPTY" := by decide
example : detectColumnType dateParseModel [some "2024-01-01", some "2024-02-01"] = "DATE" := by decide
example : detectColumnType dateParseModel [some "a", some "b"] = "STRING" := by decide
example : profileData dateParseModel "a,b" = .error "CSV file has no data rows." := rfl

/-! ## JSON.parse -/

/-- JSON insignificant whitespace. -/
def skipWs (l : List Char) : List Char :=
  l.dropWhile (fun c => c == ' ' || c == '\t' || c == '\n' || c == '\r')

/-- Four hex digits of a `\u` escape. -/
def parseHex4 (l : List Char) : Option (ℕ × List Char) :=
  match l with
  | a :: b :: c :: d :: rest =>
    if [a, b, c, d].all isHexDigit then some (radixVal 16 hexDigitVal [a, b, c, d], rest)
    else none
  | _ => none

/-- Body of a JSON string after the opening quote (fuel consumes at least one
character per step; `\u` escapes outside the valid scalar range degrade to the
default character, which no input here exercises). -/
def parseJStringAux : ℕ → List Char → List Char → Option (String × List Char)
  | 0, _, _ => none
  | fuel + 1, acc, l =>
    match l with
    | [] => none
    | '"' :: rest => some (⟨acc.reverse⟩, rest)
    | '\\' :: esc :: rest =>
      match esc with
      | '"' => parseJStringAux fuel ('"' :: acc) rest
      | '\\' => parseJStringAux fuel ('\\' :: acc) rest
      | '/' => parseJStringAux fuel ('/' :: acc) rest
      | 'b' => parseJStringAux fuel ('\x08' :: acc) rest
      | 'f' => parseJStringAux fuel ('\x0c' :: acc) rest
      | 'n' => parseJStringAux fuel ('\n' :: acc) rest
      | 'r' => parseJStringAux fuel ('\r' :: acc) rest
      | 't' => parseJStringAux fuel ('\t' :: acc) rest
      | 'u' =>
        match parseHex4 rest with
        | some p => parseJStringAux fuel (Char.ofNat p.1 :: acc) p.2
        | none => none
      | _ => none
    | c :: rest => if c.toNat < 32 then none else parseJStringAux fuel (c :: acc) rest

/-- A JSON string starting after the opening quote. -/
def parseJString (l : List Char) : Option (String × List Char) :=
  parseJStringAux (l.length + 1) [] l

/-- Fraction and exponent of a JSON number, given the integer-part digits. -/
def jnumExp (sgn : ℤ) (m : ℕ) (e : ℤ) (l : List Char) : Option (JSNum × List Char) :=
  match l with
  | c :: rest =>
    if c == 'e' || c == 'E' then
      let p : ℤ × List Char :=
        match rest with
        | '+' :: r => (1, r)
        | '-' :: r => (-1, r)
        | r => (1, r)
      let ds := p.2.takeWhile Char.isDigit
      let r2 := p.2.dropWhile Char.isDigit
      if ds.isEmpty then none
      else some (JSNum.fin (sgn * m) (e + p.1 * decDigitsVal ds), r2)
    else some (JSNum.fin (sgn * m) e, l)
  | [] => some (JSNum.fin (sgn * m) e, [])

/-- Fraction part of a JSON number. -/
def jnumAfterInt (sgn : ℤ) (ip : List Char) (l : List Char) : Option (JSNum × List Char) :=
  match l with
  | '.' :: rest =>
    let fp := rest.takeWhile Char.isDigit
    let rest2 := rest.dropWhile Char.isDigit
    if fp.isEmpty then none
    else jnumExp sgn (decDigitsVal ip * 10 ^ fp.length + decDigitsVal fp) (-(fp.length : ℤ)) rest2
  | _ => jnumExp sgn (decDigitsVal ip) 0 l

/-- Integer part of a JSON number (`0` or a non-zero leading digit run). -/
def parseJNumCore (sgn : ℤ) (l : List Char) : Option (JSNum × List Char) :=
  match l with
  | '0' :: rest => jnumAfterInt sgn ['0'] rest
  | c :: rest =>
    if c.isDigit then jnumAfterInt sgn (c :: rest.takeWhile Char.isDigit) (rest.dropWhile Char.isDigit)
    else none
  | [] => none

/-- A JSON number literal. -/
def parseJNumber (l : List Char) : Option (JSNum × List Char) :=
  match l with
  | '-' :: r => parseJNumCore (-1) r
  | r => parseJNumCore 1 r

mutual

/-- A JSON value; fuel is consumed once per nesting step and the input always
supplies enough (`jsonParse` passes the input length plus one). -/
def parseJValue : ℕ → List Char → Option (JValue × List Char)
  | 0, _ => none
  | fuel + 1, l =>
    match skipWs l with
    | 'n' :: 'u' :: 'l' :: 'l' :: rest => some (.vnull, rest)
    | 't' :: 'r' :: 'u' :: 'e' :: rest => some (.vbool true, rest)
    | 'f' :: 'a' :: 'l' :: 's' :: 'e' :: rest => some (.vbool false, rest)
    | '"' :: rest => (parseJString rest).map (fun p => (.vstr p.1, p.2))
    | '[' :: rest =>
      match skipWs rest with
      | ']' :: rest2 => some (.varr [], rest2)
      | _ => parseJArrayElems fuel rest []
    | '{' :: rest =>
      match skipWs rest with
      | '}' :: rest2 => some (.vobj [], rest2)
      | _ => parseJObjMembers fuel rest []
    | l2 => (parseJNumber l2).map (fun p => (.vnum p.1, p.2))

/-- Comma-separated array elements up to the closing bracket. -/
def parseJArrayElems : ℕ → List Char → List JValue → Option (JValue × List Char)
  | 0, _, _ => none
  | fuel + 1, l, acc =>
    match parseJValue fuel l with
    | some (v, rest) =>
      match skipWs rest with
      | ',' :: rest2 => parseJArrayElems fuel rest2 (v :: acc)
      | ']' :: rest2 => some (.varr (v :: acc).reverse, rest2)
      | _ => none
    | none => none

/-- Comma-separated object members up to the closing brace (a duplicate key
overwrites in place, as `JSON.parse` does). -/
def parseJObjMembers : ℕ → List Char → List (String × JValue) → Option (JValue × List Char)
  | 0, _, _ => none
  | fuel + 1, l, acc =>
    match skipWs l with
    | '"' :: rest =>
      match parseJString rest with
      | some kp =>
        match skipWs kp.2 with
        | ':' :: rest3 =>
          match parseJValue fuel rest3 with
          | some vp =>
            match skipWs vp.2 with
            | ',' :: rest5 => parseJObjMembers fuel rest5 (objSet acc kp.1 vp.1)
            | '}' :: rest5 => some (.vobj (objSet acc kp.1 vp.1), rest5)
            | _ => none
          | none => none
        | _ => none
      | none => none
    | _ => none

end

/-- `JSON.parse(s)`: parse one value and require only whitespace after it. -/
def jsonParse (s : String) : Option JValue :=
  match parseJValue (s.data.length + 1) s.data with
  | some p => if skipWs p.2 = [] then some p.1 else none
  | none => none

example : jsonParse "\x7boops" = none := rfl
example : jsonParse "null" = some JValue.vnull := rfl
example : jsonParse " \x7b\x22a\x22: [1, \x22x\x22]\x7d " =
    some (JValue.vobj [("a", JValue.varr [JValue.vnum (JSNum.fin 1 0), JValue.vstr "x"])]) := rfl

/-! ## The error classes and the `callGemini` normalization stages -/

/-- The two error classes of `src/services/errors.ts`: `GeminiApiError`
carries only a message; `DataParsingError` carries a message and an optional
title. -/
inductive GemError where
  | geminiApiError (message : String)
  | dataParsingError (message : String) (title : Option String)
deriving DecidableEq, Repr

/-- Does the error carry a (present) user-facing title?  Only the
`DataParsingError` class has a title field at all. -/
def GemError.hasTitle : GemError → Bool
  | .dataParsingError _ (some _) => true
  | _ => false

/-- Is the error the service-failure class (`GeminiApiError`)? -/
def GemError.isApiError : GemError → Bool
  | .geminiApiError _ => true
  | _ => false

/-- Stand-in for the host-defined message of the `SyntaxError` that
`JSON.parse` throws on malformed text (it contains neither of the substrings
the catch block inspects). -/
def SYNTAX_ERROR_MSG : String := "Unexpected token in JSON"

/-- The first catch block of `callGemini`: classify the failure message into
the three `GeminiApiError` messages. -/
def enhanceApiError (errorMessage : String) : GemError :=
  if containsSub errorMessage "API key not valid" then
    .geminiApiError "A chave da API fornecida é inválida. Verifique sua configuração."
  else if containsSub errorMessage "quota" then
    .geminiApiError "A cota de uso da API foi excedida. Por favor, tente novamente mais tarde."
  else .geminiApiError ("Falha ao obter análise do Gemini. Causa: " ++ errorMessage)

/-- Stage 1 of `callGemini`: take the (post-retry) service outcome, trim the
returned text and `JSON.parse` it; any throw in this block lands in the first
catch and becomes a `GeminiApiError`. -/
def stage1 (serviceResult : Except String String) : Except GemError JValue :=
  match serviceResult with
  | .error e => .error (enhanceApiError e)
  | .ok text =>
    match jsonParse (jsTrim text) with
    | none => .error (enhanceApiError SYNTAX_ERROR_MSG)
    | some v => .ok v

/-- The per-finding body of the post-processing `forEach`: reading
`finding.plot` throws on a `null`/`undefined` finding; a truthy plot whose
`data` is a non-empty array with an array first row gets its `data` replaced
by `convertData`'s row objects. -/
def normalizeFinding (finding : JValue) : Except Unit JValue := do
  let plot ← getProp finding "plot"
  if jsTruthy plot then do
    let d ← getProp plot "data"
    match d with
    | .varr rows =>
      if rows.length > 0 ∧ isArray (rows.headD .vundefined) then do
        let nd ← convertData (.varr rows)
        pure (setProp finding "plot" (setProp plot "data" (.varr (nd.map JValue.vobj))))
      else pure finding
    | _ => pure finding
  else pure finding

/-- Stage 2 of `callGemini` (the second try block): post-process every
finding's plot data; reading `result.findings` throws on a `null` result. -/
def normalizeResult (result : JValue) : Except Unit JValue := do
  let fv ← getProp result "findings"
  if jsTruthy fv ∧ isArray fv then
    match fv with
    | .varr fs => do
      let fs2 ← fs.mapM normalizeFinding
      pure (setProp result "findings" (.varr fs2))
    | _ => pure result
  else pure result

/-- `callGemini` after the model call: stage 1 classifies service/parse
failures as `GeminiApiError`; any stage-2 throw becomes the
`DataParsingError` of the second catch block. -/
def callGeminiModel (serviceResult : Except String String) : Except GemError JValue :=
  match stage1 serviceResult with
  | .error g => .error g
  | .ok result =>
    match normalizeResult result with
    | .ok r => .ok r
    | .error _ =>
      .error (.dataParsingError
        "A IA retornou dados de visualização em um formato que não pôde ser processado." none)

/-! ## summarizeConversation -/

/-- The body of `summarizeConversation` after the (post-retry) service
outcome: every throw — service failure, JSON parse failure, or property
access on a non-object — is caught and becomes `""`; otherwise
`result.summary || ""`. -/
def summarizeModel (serviceResult : Except String String) : JValue :=
  match serviceResult with
  | .error _ => .vstr ""
  | .ok text =>
    match jsonParse (jsTrim text) with
    | none => .vstr ""
    | some v =>
      match getProp v "summary" with
      | .error _ => .vstr ""
      | .ok sv => if jsTruthy sv then sv else .vstr ""

/-- `summarizeConversation` composed with its retry wrapper. -/
def summarizeConversationModel (f : ℕ → Except String String) (jitter : ℕ → ℚ) : JValue :=
  summarizeModel (callApiWithRetry f jitter).result

/-! ## Typed result values (well-formed `AnalysisResult` shapes) -/

/-- A typed plot specification; `data` stays a raw value because the
normalizer sees both array-of-arrays and row-object forms. -/
structure PlotT where
  chart_type : String
  title : String
  description : String
  data : JValue
  data_keys : List (String × JValue)

/-- The JSON value of a typed plot. -/
def PlotT.toJ (p : PlotT) : JValue :=
  .vobj [("chart_type", .vstr p.chart_type), ("title", .vstr p.title),
         ("description", .vstr p.description), ("data", p.data),
         ("data_keys", .vobj p.data_keys)]

/-- A typed finding. -/
structure FindingT where
  insight : String
  plot : Option PlotT

/-- The JSON value of a typed finding. -/
def FindingT.toJ (f : FindingT) : JValue :=
  .vobj (("insight", .vstr f.insight) ::
    (match f.plot with
     | some p => [("plot", p.toJ)]
     | none => []))

/-- A typed analysis result. -/
structure AnalysisResultT where
  findings : List FindingT
  suggested : List String

/-- The JSON value of a typed analysis result. -/
def AnalysisResultT.toJ (r : AnalysisResultT) : JValue :=
  .vobj [("findings", .varr (r.findings.map FindingT.toJ)),
         ("suggested_followups", .varr (r.suggested.map JValue.vstr))]

/-- Is the value already a sequence of row objects? -/
def isRowObjects : JValue → Bool
  | .varr xs => xs.all (fun x => match x with | .vobj _ => true | _ => false)
  | _ => false

/-! ## Supporting lemmas -/

theorem mapM_ok_of_eq {α ε : Type} (l : List α) (g : α → Except ε α)
    (h : ∀ x ∈ l, g x = Except.ok x) : l.mapM g = Except.ok l := by
  induction l with
  | nil => rfl
  | cons x xs ih =>
    rw [List.mapM_cons, h x (List.mem_cons_self x xs),
      ih (fun y hy => h y (List.mem_cons_of_mem x hy))]
    rfl

theorem objGet_isSome_iff (o : List (String × JValue)) (k : String) :
    (objGet o k).isSome = true ↔ k ∈ o.map Prod.fst := by
  induction o with
  | nil => simp [objGet]
  | cons p ps ih =>
    rw [List.map_cons, List.mem_cons]
    unfold objGet at ih ⊢
    rw [List.find?_cons]
    by_cases h : p.1 = k
    · rw [decide_eq_true h]
      exact iff_of_true rfl (Or.inl h.symm)
    · rw [decide_eq_false h]
      constructor
      · exact fun hm => Or.inr (ih.1 hm)
      · rintro (hk | hm)
        · exact absurd hk.symm h
        · exact ih.2 hm

theorem mem_keys_objSet (o : List (String × JValue)) (k : String) (v : JValue) (k' : String) :
    k' ∈ (objSet o k v).map Prod.fst ↔ (k' = k ∨ k' ∈ o.map Prod.fst) := by
  unfold objSet
  by_cases h : o.any (fun p => decide (p.1 = k)) = true
  · rw [if_pos h, List.map_map]
    have hfst : (Prod.fst ∘ fun p : String × JValue => if p.1 = k then (k, v) else p) = Prod.fst := by
      funext p
      by_cases hp : p.1 = k
      · simp [hp]
      · simp [hp]
    rw [hfst]
    obtain ⟨p, hp, hpk⟩ := List.any_eq_true.1 h
    have hk : k ∈ o.map Prod.fst := List.mem_map.2 ⟨p, hp, of_decide_eq_true hpk⟩
    constructor
    · exact Or.inr
    · rintro (rfl | hmem)
      · exact hk
      · exact hmem
  · rw [if_neg h, List.map_append]
    simp [or_comm]

theorem keys_foldl_objSet (ps : List (ℕ × String)) (g : ℕ × String → JValue)
    (acc : List (String × JValue)) (k : String)
    (h : k ∈ ps.map Prod.snd ∨ k ∈ acc.map Prod.fst) :
    k ∈ (ps.foldl (fun o p => objSet o p.2 (g p)) acc).map Prod.fst := by
  induction ps generalizing acc with
  | nil =>
    rcases h with h | h
    · simp at h
    · simpa using h
  | cons p ps ih =>
    rw [List.foldl_cons]
    apply ih
    rcases h with h | h
    · rw [List.map_cons] at h
      rcases List.mem_cons.1 h with rfl | hmem
      · exact Or.inr ((mem_keys_objSet _ _ _ _).2 (Or.inl rfl))
      · exact Or.inl hmem
    · exact Or.inr ((mem_keys_objSet _ _ _ _).2 (Or.inr h))

theorem indexVal_ok (row : JValue) (h : isNullish row = false) (i : ℕ) :
    indexVal row i = .ok (cellAt row i) := by
  cases row <;> first | rfl | exact Bool.noConfusion h

theorem buildRowLoop_ok (row : JValue) (h : isNullish row = false) :
    ∀ (ps : List (ℕ × String)) (acc : List (String × JValue)),
      buildRowLoop row ps acc =
        .ok (ps.foldl (fun obj p => objSet obj p.2 (coerceCell (cellAt row p.1))) acc) := by
  intro ps
  induction ps with
  | nil => intro acc; rfl
  | cons p ps ih =>
    intro acc
    show (match indexVal row p.1 with
      | Except.error e => Except.error e
      | Except.ok value => buildRowLoop row ps (objSet acc p.2 (coerceCell value))) = _
    rw [indexVal_ok row h p.1, List.foldl_cons]
    exact ih _

theorem buildRowLoop_nullish (row : JValue) (h : isNullish row = true)
    (p : ℕ × String) (ps : List (ℕ × String)) (acc : List (String × JValue)) :
    buildRowLoop row (p :: ps) acc = .error () := by
  cases row <;> first | rfl | exact Bool.noConfusion h

theorem exceptMapM_ok_mem {α β : Type} (f : α → Except Unit β) :
    ∀ (l : List α) (ys : List β), l.mapM f = Except.ok ys →
      ∀ y ∈ ys, ∃ x ∈ l, f x = Except.ok y := by
  intro l
  induction l with
  | nil =>
    intro ys h y hy
    have h2 : (Except.ok [] : Except Unit (List β)) = Except.ok ys := h
    injection h2 with h3
    rw [← h3] at hy
    exact absurd hy (List.not_mem_nil y)
  | cons x xs ih =>
    intro ys h y hy
    rw [List.mapM_cons] at h
    cases hfx : f x with
    | error e =>
      rw [hfx] at h
      exact Except.noConfusion (show (Except.error e : Except Unit (List β)) = .ok ys from h)
    | ok b =>
      rw [hfx] at h
      cases hxs : xs.mapM f with
      | error e =>
        rw [hxs] at h
        exact Except.noConfusion (show (Except.error e : Except Unit (List β)) = .ok ys from h)
      | ok bs =>
        rw [hxs] at h
        have h2 : (Except.ok (b :: bs) : Except Unit (List β)) = Except.ok ys := h
        injection h2 with h3
        rw [← h3] at hy
        rcases List.mem_cons.1 hy with rfl | hmem
        · exact ⟨x, List.mem_cons_self x xs, hfx⟩
        · obtain ⟨x', hx', hfx'⟩ := ih bs hxs y hmem
          exact ⟨x', List.mem_cons_of_mem x hx', hfx'⟩

theorem buildRowLoop_ok_keys (row : JValue) (k : String) :
    ∀ (ps : List (ℕ × String)) (acc obj : List (String × JValue)),
      buildRowLoop row ps acc = .ok obj →
      (k ∈ ps.map Prod.snd ∨ k ∈ acc.map Prod.fst) →
      k ∈ obj.map Prod.fst := by
  intro ps
  induction ps with
  | nil =>
    intro acc obj hl hm
    injection hl with hobj
    rcases hm with hm | hm
    · exact absurd hm (List.not_mem_nil k)
    · rw [← hobj]; exact hm
  | cons p ps ih =>
    intro acc obj hl hm
    revert hl
    show (match indexVal row p.1 with
      | Except.error e => Except.error e
      | Except.ok value => buildRowLoop row ps (objSet acc p.2 (coerceCell value))) = .ok obj → _
    cases hiv : indexVal row p.1 with
    | error e => intro hl; exact Except.noConfusion hl
    | ok value =>
      intro hl
      refine ih (objSet acc p.2 (coerceCell value)) obj hl ?_
      rcases hm with hm | hm
      · rw [List.map_cons] at hm
        rcases List.mem_cons.1 hm with rfl | hmem
        · exact Or.inr ((mem_keys_objSet _ _ _ _).2 (Or.inl rfl))
        · exact Or.inl hmem
      · exact Or.inr ((mem_keys_objSet _ _ _ _).2 (Or.inr hm))

/-! ## C1: the spec's description of `convertData`, stated independently -/

/-- The per-cell rule in the claim's wording, amended only in the coercion
test: a string cell is coerced exactly when the trim is non-empty and
`Number(trim)` is not NaN (the claim said "finite"); every other cell keeps
its original value. -/
def specCoerceAmended (cell : JValue) : JValue :=
  match cell with
  | .vstr s =>
    if jsTrim s = "" then .vstr s
    else if (jsStrToNumber (jsTrim s)).isNaN then .vstr s
    else .vnum (jsStrToNumber (jsTrim s))
  | other => other

/-- The per-cell rule exactly as the claim states it: coerce when the trim is
non-empty and `Number(trim)` is finite. -/
def specCoerceFinite (cell : JValue) : JValue :=
  match cell with
  | .vstr s =>
    if jsTrim s ≠ "" ∧ (jsStrToNumber (jsTrim s)).isFinite = true then
      .vnum (jsStrToNumber (jsTrim s))
    else .vstr s
  | other => other

/-- An object built by performing a list of property assignments in order. -/
def objOfAssignments (ps : List (String × JValue)) : List (String × JValue) :=
  ps.foldl (fun o p => objSet o p.1 p.2) []

/-- A row object per the amended claim: a `null`/`undefined` data row with at
least one header is the error case (the cell read throws); otherwise keys are
the header names in order, values the coerced cells (amended rule). -/
def specRowAmended (headers : List String) (row : JValue) :
    Except Unit (List (String × JValue)) :=
  if isNullish row ∧ headers ≠ [] then .error ()
  else .ok (objOfAssignments (headers.enum.map (fun p => (p.2, specCoerceAmended (cellAt row p.1)))))

/-- A row object per the claim's literal wording (finite rule,
unconditional success). -/
def specRowFinite (headers : List String) (row : JValue) : List (String × JValue) :=
  objOfAssignments (headers.enum.map (fun p => (p.2, specCoerceFinite (cellAt row p.1))))

/-- The claim's whole-table description with the amended per-cell and per-row
rules: non-arrays and tables with fewer than 2 rows give the empty row
sequence; otherwise one row object per data row, keyed by the stringified
header row (a non-array header row with data rows present, or a nullish data
row under a non-empty header, is the error case). -/
def convertDataAmendedSpec (data : JValue) : Except Unit (List (List (String × JValue))) :=
  match data with
  | .varr [] => .ok []
  | .varr (headerRow :: dataRows) =>
    if dataRows.isEmpty then .ok []
    else
      match headerRow with
      | .varr hs => dataRows.mapM (specRowAmended (hs.map jsToString))
      | _ => .error ()
  | _ => .ok []

/-- The claim's whole-table description with its literal finite rule and its
unconditional "one row object per data row". -/
def convertDataClaimFinite (data : JValue) : Except Unit (List (List (String × JValue))) :=
  match data with
  | .varr [] => .ok []
  | .varr (headerRow :: dataRows) =>
    if dataRows.isEmpty then .ok []
    else
      match headerRow with
      | .varr hs => .ok (dataRows.map (specRowFinite (hs.map jsToString)))
      | _ => .error ()
  | _ => .ok []

theorem coerceCell_eq_specCoerceAmended (v : JValue) : coerceCell v = specCoerceAmended v := by
  cases v <;> try rfl
  case vstr s =>
    unfold coerceCell specCoerceAmended
    by_cases h1 : jsTrim s = ""
    · simp [h1]
    · by_cases h2 : (jsStrToNumber (jsTrim s)).isNaN = true
      · simp [h1, h2]
      · simp [h1, h2]

theorem buildRowObj_eq_spec (headers : List String) (row : JValue) :
    buildRowObj headers row = specRowAmended headers row := by
  cases hn : isNullish row with
  | true =>
    cases headers with
    | nil =>
      unfold buildRowObj specRowAmended
      rw [if_neg (fun hand => hand.2 rfl)]
      rfl
    | cons h t =>
      unfold buildRowObj specRowAmended
      rw [if_pos ⟨hn, List.cons_ne_nil h t⟩]
      exact buildRowLoop_nullish row hn (0, h) _ _
  | false =>
    unfold buildRowObj specRowAmended
    rw [if_neg (fun hand => Bool.noConfusion (hn.symm.trans hand.1))]
    rw [buildRowLoop_ok row hn headers.enum []]
    unfold objOfAssignments
    rw [List.foldl_map]
    simp only [coerceCell_eq_specCoerceAmended]

theorem convertData_eq_amendedSpec (data : JValue) :
    convertData data = convertDataAmendedSpec data := by
  cases data <;> try rfl
  case varr rows =>
    match rows with
    | [] => rfl
    | [r] => rfl
    | r :: r2 :: rest =>
      cases r with
      | varr hdr =>
        show (r2 :: rest).mapM (buildRowObj (hdr.map jsToString)) =
          (r2 :: rest).mapM (specRowAmended (hdr.map jsToString))
        have hfun : buildRowObj (hdr.map jsToString) = specRowAmended (hdr.map jsToString) :=
          funext (fun row => buildRowObj_eq_spec (hdr.map jsToString) row)
        rw [hfun]
      | vstr s => rfl
      | vnum n => rfl
      | vbool b => rfl
      | vnull => rfl
      | vundefined => rfl
      | vobj fs => rfl

/-- **C1** (amended): `convertData` returns the empty row sequence on
non-arrays and on tables with fewer than 2 rows; otherwise it builds one row
object per data row keyed by the stringified header row, coercing each string
cell to `Number(trim)` exactly when the trim is non-empty and `Number(trim)`
is not NaN (the original claim said "finite"; see the counterexample) and
leaving all other cells untouched — except that reading a cell of a `null` or
`undefined` data row under a non-empty header throws, an error the enclosing
second try block of `callGemini` surfaces as its `DataParsingError`.  The two
concrete examples of the claim hold, and the table `[["H"], null]` throws,
also through the per-finding normalizer. -/
theorem C1_convertData_normalization :
    (∀ data : JValue, convertData data = convertDataAmendedSpec data) ∧
    convertData (.varr [.varr [.vstr "Month", .vstr "Sales"],
                        .varr [.vstr "Jan", .vstr "150"],
                        .varr [.vstr "Feb", .vstr "200"]]) =
      .ok [[("Month", .vstr "Jan"), ("Sales", .vnum (JSNum.fin 150 0))],
           [("Month", .vstr "Feb"), ("Sales", .vnum (JSNum.fin 200 0))]] ∧
    convertData (.varr [.varr [.vstr "A"]]) = .ok [] ∧
    convertData (.vstr "not a table") = .ok [] ∧
    convertData .vnull = .ok [] ∧
    convertData (.varr [.varr [.vstr "H"], .vnull]) = .error () ∧
    normalizeFinding (.vobj [("plot", .vobj [("data",
      .varr [.varr [.vstr "H"], .vnull])])]) = .error () :=
  ⟨convertData_eq_amendedSpec, rfl, rfl, rfl, rfl, rfl, rfl⟩

/-- **C1** (counterexample): on the cell `"Infinity"` the code coerces (its
`!isNaN(Number(trim))` test passes) while the claim's "Number(trim) is
finite" rule keeps the string, so the claim as stated is false on the table
`[["H"], ["Infinity"]]`; and on the table `[["H"], null]` the code throws
where the claim's unconditional "one row object per data row" succeeds. -/
theorem C1_counterexample :
    convertData (.varr [.varr [.vstr "H"], .varr [.vstr "Infinity"]]) =
      .ok [[("H", .vnum JSNum.posInf)]] ∧
    convertDataClaimFinite (.varr [.varr [.vstr "H"], .varr [.vstr "Infinity"]]) =
      .ok [[("H", .vstr "Infinity")]] ∧
    convertData (.varr [.varr [.vstr "H"], .varr [.vstr "Infinity"]]) ≠
      convertDataClaimFinite (.varr [.varr [.vstr "H"], .varr [.vstr "Infinity"]]) ∧
    convertData (.varr [.varr [.vstr "H"], .vnull]) = .error () ∧
    convertDataClaimFinite (.varr [.varr [.vstr "H"], .vnull]) =
      .ok [[("H", .vundefined)]] := by
  refine ⟨rfl, rfl, ?_, rfl, rfl⟩
  intro h
  have h2 : Except.ok (ε := Unit) [[("H", JValue.vnum JSNum.posInf)]] =
      Except.ok [[("H", JValue.vstr "Infinity")]] := h
  injection h2 with h3
  injection h3 with h4 _
  injection h4 with h5 _
  injection h5 with _ h6
  exact JValue.noConfusion h6

/-! ## C2: the retry policy -/

/-- **C2**: through the retry wrapper, (i) a first-attempt failure that is not
quota-class propagates immediately after exactly one underlying invocation
with no waits; (ii) a call failing twice with quota-class errors then
succeeding invokes the underlying call exactly 3 times, returns the success,
and waits `INITIAL_BACKOFF_MS * 2^attempt + jitter attempt` before each
retry; (iii) three quota-class failures exhaust the fixed maximum of
`MAX_RETRIES = 3` attempts and re-raise the last quota failure; (iv) with the
jitter drawn from `[0, 1000)`, each subsequent wait is at least the previous
wait. -/
theorem C2_retry_policy :
    (∀ (α : Type) (f : ℕ → Except String α) (jitter : ℕ → ℚ) (e : String),
      f 0 = .error e → isQuotaError e = false →
      callApiWithRetry f jitter = ⟨.error e, 1, []⟩) ∧
    (∀ (α : Type) (f : ℕ → Except String α) (jitter : ℕ → ℚ) (e0 e1 : String) (v : α),
      f 0 = .error e0 → isQuotaError e0 = true →
      f 1 = .error e1 → isQuotaError e1 = true →
      f 2 = .ok v →
      callApiWithRetry f jitter =
        ⟨.ok v, 3, [backoffTime jitter 0, backoffTime jitter 1]⟩) ∧
    (∀ (α : Type) (f : ℕ → Except String α) (jitter : ℕ → ℚ) (e0 e1 e2 : String),
      f 0 = .error e0 → isQuotaError e0 = true →
      f 1 = .error e1 → isQuotaError e1 = true →
      f 2 = .error e2 → isQuotaError e2 = true →
      callApiWithRetry f jitter =
        ⟨.error e2, 3, [backoffTime jitter 0, backoffTime jitter 1]⟩) ∧
    (∀ jitter : ℕ → ℚ, (∀ i, 0 ≤ jitter i ∧ jitter i < 1000) →
      ∀ a : ℕ, backoffTime jitter a ≤ backoffTime jitter (a + 1)) := by
  refine ⟨?_, ?_, ?_, ?_⟩
  · intro α f jitter e h0 hq
    unfold callApiWithRetry MAX_RETRIES
    simp [retryAux, h0, hq]
  · intro α f jitter e0 e1 v h0 hq0 h1 hq1 h2
    unfold callApiWithRetry MAX_RETRIES
    simp [retryAux, MAX_RETRIES, h0, hq0, h1, hq1, h2]
  · intro α f jitter e0 e1 e2 h0 hq0 h1 hq1 h2 hq2
    unfold callApiWithRetry MAX_RETRIES
    simp [retryAux, MAX_RETRIES, h0, hq0, h1, hq1, h2, hq2]
  · intro jitter hj a
    have hlt := (hj a).2
    have hge := (hj (a + 1)).1
    unfold backoffTime INITIAL_BACKOFF_MS
    have hp : (1 : ℚ) ≤ 2 ^ a := by
      calc (1 : ℚ) = 1 ^ a := (one_pow a).symm
      _ ≤ 2 ^ a := by
        apply pow_le_pow_left₀ <;> norm_num
    rw [pow_succ]
    nlinarith [hp, hlt, hge]

/-- **C2** (witness): concrete runs — a transport failure propagates after one
call; two rate-limit failures then success make exactly 3 calls with the two
modelled waits; three quota failures re-raise the last; the waits grow. -/
theorem C2_retry_policy_witness :
    callApiWithRetry (fun _ => (.error "transport failure" : Except String ℕ))
        (fun _ => (500 : ℚ)) = ⟨.error "transport failure", 1, []⟩ ∧
    callApiWithRetry
        (fun n => if n < 2 then (.error "429 rate limit" : Except String ℕ) else .ok 42)
        (fun _ => (500 : ℚ)) =
      ⟨.ok 42, 3, [backoffTime (fun _ => (500 : ℚ)) 0, backoffTime (fun _ => (500 : ℚ)) 1]⟩ ∧
    callApiWithRetry (fun _ => (.error "quota exceeded" : Except String ℕ))
        (fun _ => (500 : ℚ)) =
      ⟨.error "quota exceeded", 3,
        [backoffTime (fun _ => (500 : ℚ)) 0, backoffTime (fun _ => (500 : ℚ)) 1]⟩ ∧
    backoffTime (fun _ => (500 : ℚ)) 0 ≤ backoffTime (fun _ => (500 : ℚ)) 1 := by
  refine ⟨?_, ?_, ?_, ?_⟩
  · exact C2_retry_policy.1 ℕ _ _ _ rfl (by decide)
  · exact C2_retry_policy.2.1 ℕ _ _ _ _ 42 rfl (by decide) rfl (by decide) rfl
  · exact C2_retry_policy.2.2.1 ℕ _ _ _ _ _ rfl (by decide) rfl (by decide) rfl (by decide)
  · exact C2_retry_policy.2.2.2 _ (fun _ => ⟨by norm_num, by norm_num⟩) 0

/-! ## C3: the profiler's column classification, stated per the claim -/

/-- The claim's "non-blank values of the column": the present cells whose
trim is non-empty. -/
def claimNonBlank (values : List (Option String)) : List String :=
  (values.filterMap id).filter (fun s => jsTrim s ≠ "")

/-- The claim's classification, written as its case list: EMPTY when all
values are blank; INTEGER when every non-blank value matches the integer
pattern; FLOAT when every non-blank value is numeric (but, the earlier case
failing, not all match the integer pattern); DATE when the column is neither
numeric nor empty and every non-blank value parses as a date or matches the
`YYYY-MM-DD` prefix; STRING otherwise. -/
def claimClassify (dateParse : String → Bool) (values : List (Option String)) : String :=
  let sample := claimNonBlank values
  if sample = [] then "EMPTY"
  else if sample.all intPat then "INTEGER"
  else if sample.all (fun v => !(jsStrToNumber v).isNaN) then "FLOAT"
  else if sample.all (fun v => dateParse v || datePat v) then "DATE"
  else "STRING"

theorem andE {a b : Bool} (h : (a && b) = true) : a = true ∧ b = true := by
  simp only [Bool.and_eq_true] at h
  exact h

theorem sample_eq_claimNonBlank (values : List (Option String)) :
    values.filterMap (fun v =>
      match v with
      | some s => if jsTrim s ≠ "" then some s else none
      | none => none) = claimNonBlank values := by
  induction values with
  | nil => rfl
  | cons v vs ih =>
    cases v with
    | none => simpa [claimNonBlank, List.filterMap_cons] using ih
    | some s =>
      by_cases h : jsTrim s = ""
      · simpa [claimNonBlank, List.filterMap_cons, List.filter_cons, h] using ih
      · simpa [claimNonBlank, List.filterMap_cons, List.filter_cons, h] using ih

theorem claimNonBlank_nil_iff (values : List (Option String)) :
    claimNonBlank values = [] ↔ values.all isBlankCell = true := by
  induction values with
  | nil => simp [claimNonBlank]
  | cons v vs ih =>
    cases v with
    | none => simpa [claimNonBlank, isBlankCell, List.filterMap_cons] using ih
    | some s =>
      by_cases h : jsTrim s = ""
      · simpa [claimNonBlank, isBlankCell, List.filterMap_cons, List.filter_cons, h] using ih
      · simp [claimNonBlank, isBlankCell, List.filterMap_cons, List.filter_cons, h]

theorem scanNum_fst (l : List String) (b : Bool) :
    (scanNum l b).1 = l.all (fun v => !(jsStrToNumber v).isNaN) := by
  induction l generalizing b with
  | nil => rfl
  | cons v vs ih =>
    unfold scanNum
    by_cases h : (jsStrToNumber v).isNaN = true
    · simp [h]
    · have h2 : (jsStrToNumber v).isNaN = false := by
        cases hv : (jsStrToNumber v).isNaN
        · rfl
        · exact absurd hv h
      simp [h2, ih]

theorem scanNum_snd (l : List String) (b : Bool)
    (h : l.all (fun v => !(jsStrToNumber v).isNaN) = true) :
    (scanNum l b).2 = (b && l.all intPat) := by
  induction l generalizing b with
  | nil => simp [scanNum]
  | cons v vs ih =>
    rw [List.all_cons] at h
    rcases andE h with ⟨h1, h2⟩
    have h1f : (jsStrToNumber v).isNaN = false := by simpa using h1
    unfold scanNum
    rw [h1f]
    simp only [Bool.false_eq_true, if_false, ih (b && intPat v) h2, List.all_cons]
    rw [Bool.and_assoc]

theorem not_ws_of_digit (c : Char) (h : c.isDigit = true) : isWsChar c = false := by
  have key : ∀ x : Char, x.isDigit = false → (c == x) = false := by
    intro x hx
    cases hcx : c == x
    · rfl
    · rw [eq_of_beq hcx] at h
      rw [h] at hx
      exact Bool.noConfusion hx
  unfold isWsChar
  rw [key ' ' (by decide), key '\t' (by decide), key '\n' (by decide), key '\r' (by decide),
    key '\x0b' (by decide), key '\x0c' (by decide)]
  rfl

theorem beq_false_of_digit (c x : Char) (h : c.isDigit = true) (hx : x.isDigit = false) :
    (c == x) = false := by
  cases hcx : c == x
  · rfl
  · rw [eq_of_beq hcx] at h
    rw [h] at hx
    exact Bool.noConfusion hx

theorem takeWhile_of_all {alpha : Type} {p : alpha → Bool} (l : List alpha)
    (h : l.all p = true) : l.takeWhile p = l := by
  induction l with
  | nil => rfl
  | cons c cs ih =>
    rw [List.all_cons] at h
    rcases andE h with ⟨h1, h2⟩
    rw [List.takeWhile_cons, h1]
    simp [ih h2]

theorem dropWhile_of_all {alpha : Type} {p : alpha → Bool} (l : List alpha)
    (h : l.all p = true) : l.dropWhile p = [] := by
  induction l with
  | nil => rfl
  | cons c cs ih =>
    rw [List.all_cons] at h
    rcases andE h with ⟨h1, h2⟩
    rw [List.dropWhile_cons, h1]
    simp [ih h2]

theorem wsTrimList_of_no_ws (l : List Char) (h : ∀ c ∈ l, isWsChar c = false) :
    wsTrimList l = l := by
  have hd : ∀ m : List Char, (∀ c ∈ m, isWsChar c = false) → m.dropWhile isWsChar = m := by
    intro m hm
    cases m with
    | nil => rfl
    | cons c cs =>
      rw [List.dropWhile_cons, hm c (List.mem_cons_self c cs)]
      rfl
  unfold wsTrimList
  rw [hd l h, hd l.reverse (fun c hc => h c (List.mem_reverse.mp hc)), List.reverse_reverse]

theorem parseDec_digits (l : List Char) (hne : l ≠ []) (hall : l.all Char.isDigit = true) :
    parseDec l = some (JSNum.fin ((decDigitsVal l : ℕ) : ℤ) 0) := by
  unfold parseDec
  rw [takeWhile_of_all l hall, dropWhile_of_all l hall]
  have hemp : l.isEmpty = false := by
    cases l
    · exact absurd rfl hne
    · rfl
  simp [hemp, parseExp]

theorem decUnsigned_digits_not_nan (sgn : ℤ) (l : List Char) (hne : l ≠ [])
    (hall : l.all Char.isDigit = true) : (decUnsigned sgn l).isNaN = false := by
  unfold decUnsigned
  rw [if_neg ?hinf]
  case hinf =>
    intro heq
    rw [heq] at hall
    exact absurd hall (by decide)
  rw [parseDec_digits l hne hall]
  rfl

theorem decSigned_digits_not_nan (l : List Char) (hne : l ≠ [])
    (hall : l.all Char.isDigit = true) : (decSigned l).isNaN = false := by
  unfold decSigned
  split
  next rest =>
    rw [List.all_cons] at hall
    exact absurd (andE hall).1 (by decide)
  next rest =>
    rw [List.all_cons] at hall
    exact absurd (andE hall).1 (by decide)
  next =>
    exact decUnsigned_digits_not_nan 1 l hne hall

theorem strToNumCore_digits_not_nan (l : List Char) (hne : l ≠ [])
    (hall : l.all Char.isDigit = true) : (strToNumCore l).isNaN = false := by
  unfold strToNumCore
  split
  next => rfl
  next c2 rest =>
    have hc2 : c2.isDigit = true := by
      rw [List.all_cons] at hall
      rcases andE hall with ⟨_, hall2⟩
      rw [List.all_cons] at hall2
      exact (andE hall2).1
    rw [beq_false_of_digit c2 'x' hc2 (by decide), beq_false_of_digit c2 'X' hc2 (by decide),
      beq_false_of_digit c2 'o' hc2 (by decide), beq_false_of_digit c2 'O' hc2 (by decide),
      beq_false_of_digit c2 'b' hc2 (by decide), beq_false_of_digit c2 'B' hc2 (by decide)]
    exact decSigned_digits_not_nan _ hne hall
  next =>
    exact decSigned_digits_not_nan l hne hall

theorem jsStrToNumber_intPat_not_nan (s : String) (h : intPat s = true) :
    (jsStrToNumber s).isNaN = false := by
  unfold jsStrToNumber
  unfold intPat at h
  rcases hd : s.data with _ | ⟨c, rest⟩
  · rw [hd] at h
    exact Bool.noConfusion h
  · rw [hd] at h
    replace h : (if c = '-' then decide (rest ≠ []) && rest.all Char.isDigit
        else (c :: rest).all Char.isDigit) = true := h
    by_cases hc : c = '-'
    · subst hc
      rw [if_pos rfl] at h
      rcases andE h with ⟨ha, hb⟩
      have hrest : rest ≠ [] := by simpa using ha
      rw [wsTrimList_of_no_ws]
      · show (decSigned ('-' :: rest)).isNaN = false
        show (decUnsigned (-1) rest).isNaN = false
        exact decUnsigned_digits_not_nan (-1) rest hrest hb
      · intro ch hch
        rcases List.mem_cons.mp hch with rfl | hmem
        · decide
        · exact not_ws_of_digit ch (List.all_eq_true.mp hb ch hmem)
    · rw [if_neg hc] at h
      have hne : (c :: rest) ≠ [] := by simp
      rw [wsTrimList_of_no_ws]
      · exact strToNumCore_digits_not_nan (c :: rest) hne h
      · intro ch hch
        exact not_ws_of_digit ch (List.all_eq_true.mp h ch hch)

theorem detect_eq_claimClassify (dp : String → Bool) (values : List (Option String)) :
    detectColumnType dp values = claimClassify dp values := by
  unfold detectColumnType claimClassify
  rw [sample_eq_claimNonBlank values]
  by_cases hb : values.all isBlankCell = true
  · rw [if_pos hb, if_pos ((claimNonBlank_nil_iff values).mpr hb)]
  · rw [if_neg hb]
    have hSne : ¬ claimNonBlank values = [] := fun hnil =>
      hb ((claimNonBlank_nil_iff values).mp hnil)
    rw [if_neg hSne]
    have hSe : (claimNonBlank values).isEmpty = false := by
      cases hS : claimNonBlank values
      · exact absurd hS hSne
      · rfl
    dsimp only
    rw [hSe]
    simp only [Bool.false_eq_true, if_false]
    by_cases hnum : (claimNonBlank values).all (fun v => !(jsStrToNumber v).isNaN) = true
    · have h1 : (scanNum (claimNonBlank values) true).1 = true := by
        rw [scanNum_fst]; exact hnum
      rw [if_pos h1]
      have h2 : (scanNum (claimNonBlank values) true).2 = (claimNonBlank values).all intPat := by
        rw [scanNum_snd _ true hnum, Bool.true_and]
      by_cases hint : (claimNonBlank values).all intPat = true
      · rw [h2, if_pos hint, if_pos hint]
      · rw [h2, if_neg hint, if_neg hint, if_pos hnum]
    · have h1 : (scanNum (claimNonBlank values) true).1 = false := by
        rw [scanNum_fst]
        cases hv : (claimNonBlank values).all (fun v => !(jsStrToNumber v).isNaN)
        · rfl
        · exact absurd hv hnum
      rw [h1]
      simp only [Bool.false_eq_true, if_false]
      have hint : ¬ (claimNonBlank values).all intPat = true := by
        intro hip
        apply hnum
        rw [List.all_eq_true]
        intro v hv
        have hnn := jsStrToNumber_intPat_not_nan v (List.all_eq_true.mp hip v hv)
        simpa using hnn
      rw [if_neg hint, if_neg hnum]
      by_cases hdate : (claimNonBlank values).all (fun v => dp v || datePat v) = true
      · rw [hdate]
        rfl
      · have hdf : (claimNonBlank values).all (fun v => dp v || datePat v) = false := by
          cases hv : (claimNonBlank values).all (fun v => dp v || datePat v)
          · rfl
          · exact absurd hv hdate
        rw [hdf]
        rfl
theorem profileData_columns (dp : String → Bool) (csv : String) (prof : DataProfile)
    (jd : List (List (String × JValue)))
    (hp : profileData dp csv = .ok (prof, jd)) :
    prof.columns.map DataProfileColumn.type =
      (csvHeaderOf csv).enum.map (fun p =>
        detectColumnType dp ((csvRowsOf csv).map (fun row => row[p.1]?))) := by
  unfold profileData at hp
  by_cases hz : (csvRowsOf csv).length = 0
  · rw [if_pos hz] at hp
    exact absurd hp (by simp)
  · rw [if_neg hz] at hp
    injection hp with hpair
    injection hpair with hprof hjd
    rw [← hprof]
    rw [List.map_map]
    rfl

/-- **C3**: the profiler's per-column classification agrees, for every column
value list and every `Date.parse` behaviour, with the claim's case list
(EMPTY / INTEGER / FLOAT / DATE / STRING as stated); the column types that
`profileData` reports are exactly those classifications of its column value
lists; and the five concrete example columns classify as the claim says. -/
theorem C3_profiler_classification :
    (∀ (dp : String → Bool) (values : List (Option String)),
      detectColumnType dp values = claimClassify dp values) ∧
    (∀ (dp : String → Bool) (csv : String) (prof : DataProfile)
        (jd : List (List (String × JValue))),
      profileData dp csv = .ok (prof, jd) →
      prof.columns.map DataProfileColumn.type =
        (csvHeaderOf csv).enum.map (fun p =>
          claimClassify dp ((csvRowsOf csv).map (fun row => row[p.1]?)))) ∧
    detectColumnType dateParseModel [some "1", some "2", some "3"] = "INTEGER" ∧
    detectColumnType dateParseModel [some "1.5", some "2"] = "FLOAT" ∧
    detectColumnType dateParseModel [some "", some "", some ""] = "EMPTY" ∧
    detectColumnType dateParseModel [some "2024-01-01", some "2024-02-01"] = "DATE" ∧
    detectColumnType dateParseModel [some "a", some "b"] = "STRING" := by
  refine ⟨detect_eq_claimClassify, ?_, by decide, by decide, by decide, by decide, by decide⟩
  intro dp csv prof jd hp
  rw [profileData_columns dp csv prof jd hp]
  simp only [detect_eq_claimClassify]

/-- **C3** (witness): on the CSV `"n,s\n1,a\n2,b"` the profiler reports
column types INTEGER and STRING, matching the claim's classification of the
two column value lists. -/
theorem C3_profiler_classification_witness :
    ([{ name := "n", type := "INTEGER", missing := 0 },
      { name := "s", type := "STRING", missing := 0 }] : List DataProfileColumn).map
        DataProfileColumn.type =
      (csvHeaderOf "n,s\n1,a\n2,b").enum.map (fun p =>
        claimClassify dateParseModel
          ((csvRowsOf "n,s\n1,a\n2,b").map (fun row => row[p.1]?))) :=
  C3_profiler_classification.2.1 dateParseModel "n,s\n1,a\n2,b"
    { rowCount := 2, columnCount := 2,
      columns := [{ name := "n", type := "INTEGER", missing := 0 },
                  { name := "s", type := "STRING", missing := 0 }] }
    [[("n", JValue.vnum (jsInt 1)), ("s", JValue.vstr "a")],
     [("n", JValue.vnum (jsInt 2)), ("s", JValue.vstr "b")]]
    rfl

/-! ## C4: conversation memory management -/

/-- The full transcript text of the non-in-flight turns. -/
def fullTranscript (msgs : List ChatMsg) : String :=
  String.intercalate "\n" ((msgs.filter (fun m => !m.isTyping)).map msgLine)

/-- The text of the last `RECENT_MESSAGES_TO_KEEP` non-in-flight turns. -/
def lastKText (msgs : List ChatMsg) : String :=
  let valid := msgs.filter (fun m => !m.isTyping)
  String.intercalate "\n" ((valid.drop (valid.length - RECENT_MESSAGES_TO_KEEP)).map msgLine)

/-- **C4**: when the concatenated `sender: text` transcript of the
non-in-flight turns is within the 4000-character threshold, the memory logic
uses the full transcript as history and suppresses the summary; past the
threshold it uses exactly the last 4 turns' text verbatim and passes the
current rolling summary. -/
theorem C4_memory_management :
    (∀ (summary : String) (msgs : List ChatMsg),
      (fullTranscript msgs).length ≤ HISTORY_CHAR_LIMIT →
      computeMemory summary msgs = (fullTranscript msgs, "")) ∧
    (∀ (summary : String) (msgs : List ChatMsg),
      (fullTranscript msgs).length > HISTORY_CHAR_LIMIT →
      computeMemory summary msgs = (lastKText msgs, summary)) := by
  constructor
  · intro summary msgs h
    unfold computeMemory
    unfold fullTranscript at h
    dsimp only
    rw [if_neg (by omega)]
    rfl
  · intro summary msgs h
    unfold computeMemory lastKText
    unfold fullTranscript at h
    dsimp only
    rw [if_pos h]

/-- **C4** (witness): a short transcript passes through whole with an empty
summary; a transcript pushed past 4000 characters by one long turn keeps only
the last 4 turns and passes the rolling summary. -/
theorem C4_memory_management_witness :
    computeMemory "stale summary" [{ sender := "user", text := "hi", isTyping := false }] =
      (fullTranscript [{ sender := "user", text := "hi", isTyping := false }], "") ∧
    computeMemory "rolling summary"
        [{ sender := "user", text := ⟨List.replicate 4001 'a'⟩, isTyping := false }] =
      (lastKText [{ sender := "user", text := ⟨List.replicate 4001 'a'⟩, isTyping := false }],
        "rolling summary") := by
  constructor
  · exact C4_memory_management.1 _ _ (by decide)
  · apply C4_memory_management.2
    have he : fullTranscript
        [{ sender := "user", text := ⟨List.replicate 4001 'a'⟩, isTyping := false }] =
        "user" ++ ": " ++ (⟨List.replicate 4001 'a'⟩ : String) := rfl
    rw [he, String.length_append, String.length_append,
      String.length_mk (List.replicate 4001 'a'), List.length_replicate]
    decide

/-! ## C5: error classes of the normalizer -/

/-- **C5** (counterexample): malformed JSON does not produce a dedicated
parse-error type carrying a user-facing title — it produces a
`GeminiApiError` (no title field, `hasTitle` false), the very class produced
by a plain service failure. -/
theorem C5_counterexample :
    callGeminiModel (.ok "\x7boops") =
      .error (.geminiApiError ("Falha ao obter análise do Gemini. Causa: " ++ SYNTAX_ERROR_MSG)) ∧
    GemError.hasTitle
      (.geminiApiError ("Falha ao obter análise do Gemini. Causa: " ++ SYNTAX_ERROR_MSG)) = false ∧
    GemError.isApiError
      (.geminiApiError ("Falha ao obter análise do Gemini. Causa: " ++ SYNTAX_ERROR_MSG)) = true ∧
    callGeminiModel (.error "network failure") =
      .error (.geminiApiError ("Falha ao obter análise do Gemini. Causa: " ++ "network failure")) :=
  ⟨rfl, rfl, rfl, rfl⟩

/-- **C5** (amended): malformed JSON fails inside the first try block and is
classified as a `GeminiApiError` whose message embeds the cause — the same
class as service failures, with no title; a step-2/3 (chart-data) failure
raises `DataParsingError`, which is a distinct error type, so callers can
distinguish chart-data failures from parse/service failures. -/
theorem C5_error_classes :
    (∀ text : String, jsonParse (jsTrim text) = none →
      callGeminiModel (.ok text) = .error (enhanceApiError SYNTAX_ERROR_MSG) ∧
      (enhanceApiError SYNTAX_ERROR_MSG).isApiError = true) ∧
    (∀ (text : String) (v : JValue), jsonParse (jsTrim text) = some v →
      normalizeResult v = .error () →
      callGeminiModel (.ok text) =
        .error (.dataParsingError
          "A IA retornou dados de visualização em um formato que não pôde ser processado."
          none)) ∧
    (∀ (m m2 : String) (t : Option String),
      GemError.geminiApiError m ≠ GemError.dataParsingError m2 t) := by
  refine ⟨?_, ?_, ?_⟩
  · intro text hp
    refine ⟨?_, rfl⟩
    unfold callGeminiModel stage1
    simp only [hp]
  · intro text v hp hn
    unfold callGeminiModel stage1
    simp only [hp, hn]
  · intro m m2 t h
    exact GemError.noConfusion h

/-- **C5** (witness): the malformed text `"\x7boops"` lands in the
`GeminiApiError` class; the JSON text `"null"` (whose `findings` access
throws) lands in `DataParsingError`; the two classes are distinct. -/
theorem C5_error_classes_witness :
    (callGeminiModel (.ok "\x7boops") = .error (enhanceApiError SYNTAX_ERROR_MSG) ∧
      (enhanceApiError SYNTAX_ERROR_MSG).isApiError = true) ∧
    callGeminiModel (.ok "null") =
      .error (.dataParsingError
        "A IA retornou dados de visualização em um formato que não pôde ser processado."
        none) ∧
    GemError.geminiApiError "x" ≠ GemError.dataParsingError "y" none :=
  ⟨C5_error_classes.1 "\x7boops" rfl, C5_error_classes.2.1 "null" JValue.vnull rfl rfl,
    C5_error_classes.2.2 "x" "y" none⟩

/-! ## C6: idempotence of normalization -/

theorem bind_ok {epsilon alpha beta : Type} (a : alpha) (g : alpha → Except epsilon beta) :
    (Except.ok a >>= g) = g a := rfl

theorem normalizeFinding_fixed (f : FindingT)
    (h : ∀ p, f.plot = some p → isRowObjects p.data = true) :
    normalizeFinding (FindingT.toJ f) = .ok (FindingT.toJ f) := by
  cases hp : f.plot with
  | none =>
    unfold normalizeFinding FindingT.toJ
    rw [hp]
    rfl
  | some p =>
    have hrow := h p hp
    unfold normalizeFinding FindingT.toJ PlotT.toJ
    rw [hp]
    dsimp only
    cases hd : p.data with
    | varr xs =>
      rw [hd] at hrow
      cases xs with
      | nil => rfl
      | cons x xt =>
        unfold isRowObjects at hrow
        dsimp only at hrow
        rw [List.all_cons] at hrow
        have hx := (andE hrow).1
        cases x with
        | vobj fs =>
          simp [bind_ok, getProp, objGet, jsTruthy, isArray, List.find?]
          rfl
        | vstr s => exact Bool.noConfusion hx
        | vnum n => exact Bool.noConfusion hx
        | vbool b => exact Bool.noConfusion hx
        | vnull => exact Bool.noConfusion hx
        | vundefined => exact Bool.noConfusion hx
        | varr ys => exact Bool.noConfusion hx
    | vstr s => rfl
    | vnum n => rfl
    | vbool b => rfl
    | vnull => rfl
    | vundefined => rfl
    | vobj fs => rfl

/-- **C6**: re-normalizing an already-normalized analysis result — one in
which every plot's data is already a sequence of row objects — is a no-op:
the normalization pass returns the value unchanged and never applies the
transposition or coercion a second time. -/
theorem C6_idempotence (r : AnalysisResultT)
    (h : ∀ f ∈ r.findings, ∀ p, f.plot = some p → isRowObjects p.data = true) :
    normalizeResult (AnalysisResultT.toJ r) = .ok (AnalysisResultT.toJ r) := by
  have hmap : (r.findings.map FindingT.toJ).mapM normalizeFinding =
      Except.ok (r.findings.map FindingT.toJ) := by
    apply mapM_ok_of_eq
    intro x hx
    obtain ⟨f, hf, rfl⟩ := List.mem_map.mp hx
    exact normalizeFinding_fixed f (h f hf)
  unfold normalizeResult
  rw [show getProp (AnalysisResultT.toJ r) "findings" =
    Except.ok (.varr (r.findings.map FindingT.toJ)) from rfl]
  rw [bind_ok]
  rw [if_pos ⟨rfl, rfl⟩]
  show ((r.findings.map FindingT.toJ).mapM normalizeFinding) >>= _ = _
  rw [hmap, bind_ok]
  rfl

/-- A concrete result whose single plot already holds row objects. -/
def c6Result : AnalysisResultT :=
  { findings := [{ insight := "vendas sobem",
                   plot := some { chart_type := "bar", title := "T", description := "D",
                                  data := .varr [.vobj [("Month", .vstr "Jan"),
                                                        ("Sales", .vnum (jsInt 150))]],
                                  data_keys := [("x", .vstr "Month"),
                                                ("y", .varr [.vstr "Sales"])] } }],
    suggested := ["e depois?"] }

/-- **C6** (witness): a concrete result whose single plot already holds
row objects passes through normalization unchanged. -/
theorem C6_idempotence_witness :
    normalizeResult (AnalysisResultT.toJ c6Result) = .ok (AnalysisResultT.toJ c6Result) := by
  apply C6_idempotence
  intro f hf p hp
  rw [List.eq_of_mem_singleton hf] at hp
  cases hp
  rfl

/-! ## C7: zero data rows -/

/-- **C7**: on every CSV text with a header line but no data line (nothing
after the first line of the trimmed text), `profileData` fails with the
error "CSV file has no data rows." instead of returning a profile. -/
theorem C7_zero_rows_error :
    ∀ (dp : String → Bool) (csv : String),
      (splitJsLines (jsTrim csv)).tail = [] →
      profileData dp csv = .error "CSV file has no data rows." := by
  intro dp csv h
  unfold profileData csvRowsOf
  rw [h]
  rfl

/-- **C7** (witness): the single-line CSV `"a,b"` has no data rows and
profiling it fails with the expected error. -/
theorem C7_zero_rows_error_witness :
    profileData dateParseModel "a,b" = .error "CSV file has no data rows." :=
  C7_zero_rows_error dateParseModel "a,b" rfl

/-! ## C8: summarization failures degrade to the empty string -/

/-- **C8**: whenever the (retry-wrapped) summarization completion call
throws, `summarizeConversation` returns the empty string instead of
raising. -/
theorem C8_summarize_swallows_errors :
    ∀ (f : ℕ → Except String String) (jitter : ℕ → ℚ) (m : String),
      (callApiWithRetry f jitter).result = .error m →
      summarizeConversationModel f jitter = .vstr "" := by
  intro f jitter m h
  unfold summarizeConversationModel summarizeModel
  rw [h]

/-- **C8** (witness): a summarization service that always throws yields the
empty summary. -/
theorem C8_summarize_swallows_errors_witness :
    summarizeConversationModel (fun _ => .error "boom") (fun _ => 0) = .vstr "" :=
  C8_summarize_swallows_errors (fun _ => .error "boom") (fun _ => 0) "boom" rfl

/-! ## C9: data_keys vs row keys -/

/-- A plot whose `data_keys.x` names `"B"` while the table's header row is
`["A"]`. -/
def c9BadResult : AnalysisResultT :=
  { findings := [{ insight := "i",
                   plot := some { chart_type := "bar", title := "t", description := "d",
                                  data := .varr [.varr [.vstr "A"], .varr [.vstr "1"]],
                                  data_keys := [("x", .vstr "B")] } }],
    suggested := [] }

/-- The same result after normalization: the table became one row object,
still referenced by the dangling `data_keys.x = "B"`. -/
def c9BadNormalized : AnalysisResultT :=
  { findings := [{ insight := "i",
                   plot := some { chart_type := "bar", title := "t", description := "d",
                                  data := .varr [.vobj [("A", .vnum (jsInt 1))]],
                                  data_keys := [("x", .vstr "B")] } }],
    suggested := [] }

/-- **C9** (counterexample): a plot whose `data_keys.x` names `"B"` while the
table's header row is `["A"]` normalizes successfully — no error is raised —
and the resulting row object has no key `"B"`; the claim said such input
fails at normalization time. -/
theorem C9_counterexample :
    normalizeResult (AnalysisResultT.toJ c9BadResult) =
      .ok (AnalysisResultT.toJ c9BadNormalized) ∧
    objGet [("A", JValue.vnum (jsInt 1))] "B" = none :=
  ⟨rfl, rfl⟩

/-- **C9** (amended): normalization does not validate `data_keys` — it
succeeds regardless — but every key that occurs in the stringified header row
is present in every row object `convertData` produces, so a `data_keys`
reference exists in each row exactly when it names a header. -/
theorem C9_data_keys (hdr rest : List JValue) (k : String)
    (objs : List (List (String × JValue)))
    (hc : convertData (.varr (.varr hdr :: rest)) = .ok objs)
    (hk : k ∈ hdr.map jsToString) :
    ∀ obj ∈ objs, (objGet obj k).isSome = true := by
  intro obj hobj
  cases rest with
  | nil =>
    have h2 : (Except.ok [] : Except Unit (List (List (String × JValue)))) = .ok objs := hc
    injection h2 with h3
    rw [← h3] at hobj
    exact absurd hobj (List.not_mem_nil obj)
  | cons r rs =>
    have hc2 : (r :: rs).mapM (buildRowObj (hdr.map jsToString)) = .ok objs := hc
    obtain ⟨row, _, hbr⟩ := exceptMapM_ok_mem _ _ _ hc2 obj hobj
    rw [objGet_isSome_iff]
    refine buildRowLoop_ok_keys row k (hdr.map jsToString).enum [] obj hbr (Or.inl ?_)
    rw [List.enum_map_snd]
    exact hk

/-- **C9** (witness): on the table `[["A"], ["1"]]` the key `"A"` is present
in the produced row object. -/
theorem C9_data_keys_witness :
    (objGet [("A", JValue.vnum (jsInt 1))] "A").isSome = true :=
  C9_data_keys [JValue.vstr "A"] [JValue.varr [JValue.vstr "1"]] "A"
    [[("A", JValue.vnum (jsInt 1))]] rfl (by decide)
    [("A", JValue.vnum (jsInt 1))] (List.Mem.head _)

/-! ## C10: the coercion inconsistency between the two implementations -/

/-- **C10**: on the same table `[["H"], [" "]]` — whose data cell is pure
whitespace, empty after trimming — the service normalizer's `convertData`
keeps the original string `" "` while the streaming chat path's inline
conversion coerces it to the number 0, so the two near-duplicate
implementations disagree on empty-after-trim cells. -/
theorem C10_coercion_inconsistency :
    convertData (.varr [.varr [.vstr "H"], .varr [.vstr " "]]) =
      .ok [[("H", .vstr " ")]] ∧
    chatConvertData [.varr [.vstr "H"], .varr [.vstr " "]] =
      .ok [[("H", .vnum (jsInt 0))]] ∧
    jsTrim " " = "" ∧
    (JValue.vstr " ") ≠ (JValue.vnum (jsInt 0)) := by
  refine ⟨rfl, rfl, rfl, ?_⟩
  intro h
  exact JValue.noConfusion h

end AED
